import Mathlib

/-!
Shallow embedding of the core of the redox kernel (32-bit x86), covering:

* `src/kernel/env/mod.rs` — the `Environment` scheme dispatch
  (`open`, `mkdir`, `rmdir`, `stat`, `unlink`);
* `src/kernel/syscall/file.rs` — the file-syscall family
  (`chdir`, `close`, `dup`, `fstat`, `lseek`, `mkdir`, `open`, `pipe2`,
  `read`, `rmdir`, `stat`, `unlink`, `write`);
* `src/kernel/main.rs` — the trap dispatcher `kernel(vector, regs)`:
  the interrupt counters and the timer-tick (vector 0x20) path.

Pieces of the repository that the code under `src/` calls but whose sources
are not under `src/` (the `fs`, `arch::context`, `common::time` and
`schemes::pipe` modules) are modelled from the specification; each such
definition carries a doc comment starting with "Modelled from the spec".
Machine integers are modelled as `Nat` with explicit `% 2 ^ 64` where the
source's u64 wrapping semantics matter.
-/

/-- Error numbers from `system::error` (values as in the Linux errno table,
which the redox `system` crate mirrors). Only the codes the embedded code
uses are named. -/
abbrev Errno := Nat

def ESRCH : Errno := 3
def EBADF : Errno := 9
def EFAULT : Errno := 14
def EEXIST : Errno := 17
def EINVAL : Errno := 22
def ENOENT : Errno := 2
def ESPIPE : Errno := 29

/-- The `O_CREAT` flag bit (`system::syscall`), per the spec's external ABI:
`O_CREAT = 0x200`. -/
def O_CREAT : Nat := 0x200

/-- Constant `SEEK_SET = 0` (`syscall` constants). -/
def SEEK_SET : Nat := 0
/-- Constant `SEEK_CUR = 1` (`syscall` constants). -/
def SEEK_CUR : Nat := 1
/-- Constant `SEEK_END = 2` (`syscall` constants). -/
def SEEK_END : Nat := 2

/-- Modelled from the spec: the `Url` value type of the `fs` module (not under
`src/`): a pair of a scheme string and a reference string, parsed from
`"scheme:reference"`. -/
structure Url where
  scheme : String
  reference : String
deriving DecidableEq, Repr

/-- Seek positions of `fs::ResourceSeek` (`Start(usize)`, `Current(isize)`,
`End(isize)`). -/
inductive ResourceSeek where
  | Start (offset : Nat)
  | Current (offset : Int)
  | SeekEnd (offset : Int)
deriving DecidableEq, Repr

/-- An open handle (`fs::Resource`, a trait object; not under `src/`).
The identity fields `rpath`/`rdata` record the label and content of synthetic
resources (`VecResource`); the behaviour fields give the outcomes of the
capability calls that the syscall layer forwards (`read`, `write`, `seek`,
`stat`), abstract because each provider implements them. -/
structure Resource where
  rpath : String := ""
  rdata : String := ""
  readFn : Nat → Except Errno Nat := fun _ => Except.error EINVAL
  writeFn : Nat → Except Errno Nat := fun _ => Except.error EINVAL
  seekFn : ResourceSeek → Except Errno Nat := fun _ => Except.error EINVAL
  statFn : Except Errno Nat := Except.error EINVAL

/-- Modelled from the spec: `fs::VecResource::new(path, vec)` (not under
`src/`) builds a synthetic read-only resource whose full read yields exactly
its content vector; `rdata` holds that content. -/
def VecResource.new (path : String) (data : String) : Resource :=
  { rpath := path, rdata := data }

/-- A named provider (`fs::KScheme`, a trait object owned by the
Environment's scheme list). `name` is the provider's `scheme()` string (may
be empty for anonymous schemes); the operation fields are the provider's
implementations, abstract because each provider supplies its own. -/
structure KScheme where
  name : String
  openFn : Url → Nat → Except Errno Resource := fun _ _ => Except.error EINVAL
  mkdirFn : Url → Nat → Except Errno Unit := fun _ _ => Except.error EINVAL
  rmdirFn : Url → Except Errno Unit := fun _ => Except.error EINVAL
  statFn : Url → Except Errno Unit := fun _ => Except.error EINVAL
  unlinkFn : Url → Except Errno Unit := fun _ => Except.error EINVAL

/-- Modelled from the spec: `fs::Scheme::new(name)` (not under `src/`)
constructs a new anonymous scheme pair: a scheme handle bearing the given
name and the server resource handed back to the registering caller. The
message protocol between handle and server is owned by the Scheme
implementation and not modelled; the spec gives `Scheme::new` no failure
mode, so it is total here. -/
def Scheme.new (name : String) : KScheme × Resource :=
  ({ name := name }, { rpath := name ++ ":" })

/-- Rust `str::trim_matches('/')` as used by `Environment::open`: strip all
leading and trailing `/` characters. -/
def trimSlashes (s : String) : String :=
  String.mk (((s.data.dropWhile (fun c => c == '/')).reverse.dropWhile
    (fun c => c == '/')).reverse)

/-- The scheme-list string built by the root-listing branch of
`Environment::open` (src/kernel/env/mod.rs lines 78-89): fold over the
registered schemes, appending each non-empty name, separated by a newline
once the accumulator is non-empty. -/
def schemeListString (schemes : List KScheme) : String :=
  schemes.foldl
    (fun list s =>
      if s.name.isEmpty then list
      else if list.isEmpty then s.name
      else list ++ "\n" ++ s.name)
    ""

/-- The shared routing loop of the five `Environment` operations
(src/kernel/env/mod.rs): scan the scheme list in order and return the first
matching provider's result; fall through to `ENOENT`. -/
def schemeScan (op : KScheme → Except Errno α) (name : String) :
    List KScheme → Except Errno α
  | [] => Except.error ENOENT
  | s :: rest => if s.name = name then op s else schemeScan op name rest

/-- Embedding of `Environment::open` (src/kernel/env/mod.rs lines 73-117). Returns the
operation's result together with the (possibly extended) scheme list, since
the registration branch pushes a new scheme. -/
def envOpen (schemes : List KScheme) (url : Url) (flags : Nat) :
    Except Errno Resource × List KScheme :=
  if url.scheme = "" then
    let urlPath := url.reference
    if trimSlashes urlPath = "" then
      (Except.ok (VecResource.new ":" (schemeListString schemes)), schemes)
    else if flags &&& O_CREAT = O_CREAT then
      if schemes.any (fun s => s.name = urlPath) then
        (Except.error EEXIST, schemes)
      else
        let pair := Scheme.new urlPath
        (Except.ok pair.2, schemes ++ [pair.1])
    else
      (Except.error ENOENT, schemes)
  else
    (schemeScan (fun s => s.openFn url flags) url.scheme schemes, schemes)

/-- Embedding of `Environment::mkdir` (src/kernel/env/mod.rs lines 120-130). -/
def envMkdir (schemes : List KScheme) (url : Url) (flags : Nat) :
    Except Errno Unit :=
  if url.scheme = "" then Except.error ENOENT
  else schemeScan (fun s => s.mkdirFn url flags) url.scheme schemes

/-- Embedding of `Environment::rmdir` (src/kernel/env/mod.rs lines 133-143). -/
def envRmdir (schemes : List KScheme) (url : Url) : Except Errno Unit :=
  if url.scheme = "" then Except.error ENOENT
  else schemeScan (fun s => s.rmdirFn url) url.scheme schemes

/-- Embedding of `Environment::stat` (src/kernel/env/mod.rs lines 146-156). -/
def envStat (schemes : List KScheme) (url : Url) : Except Errno Unit :=
  if url.scheme = "" then Except.error ENOENT
  else schemeScan (fun s => s.statFn url) url.scheme schemes

/-- Embedding of `Environment::unlink` (src/kernel/env/mod.rs lines 159-169). -/
def envUnlink (schemes : List KScheme) (url : Url) : Except Errno Unit :=
  if url.scheme = "" then Except.error ENOENT
  else schemeScan (fun s => s.unlinkFn url) url.scheme schemes

theorem schemeScan_eq_find (op : KScheme → Except Errno α) (name : String)
    (schemes : List KScheme) :
    schemeScan op name schemes =
      match schemes.find? (fun s => s.name == name) with
      | some s => op s
      | none => Except.error ENOENT := by
  induction schemes with
  | nil => rfl
  | cons s rest ih =>
    by_cases h : s.name = name
    · simp [schemeScan, h, List.find?]
    · have hb : (s.name == name) = false := beq_false_of_ne h
      simp [schemeScan, h, List.find?, hb, ih]

/-- One file-table entry (`arch::context::ContextFile`): a descriptor number
paired with the owned resource. -/
structure ContextFile where
  fd : Nat
  resource : Resource

/-- The per-task state the file-syscall family touches (`arch::context::
Context`, not under `src/`): the working directory, the file table and the
tick counter. `pid`, `name`, `blocked`, environment variables and the
address space play no part in the embedded operations. -/
structure Context where
  cwd : String := ""
  files : List ContextFile := []
  time : Nat := 0

/-- Modelled from the spec: `Context::next_fd` (arch context module, not
under `src/`) returns 1 + the maximum fd in `files`, or 0 when the table is
empty. -/
def next_fd (files : List ContextFile) : Nat :=
  match files with
  | [] => 0
  | _ => (files.map ContextFile.fd).foldl Nat.max 0 + 1

/-- Modelled from the spec: `Context::get_file` (arch context module, not
under `src/`) resolves a descriptor number to its resource; an unknown file
descriptor fails with `EBADF`. -/
def get_file (files : List ContextFile) (fd : Nat) : Except Errno Resource :=
  match files.find? (fun f => f.fd == fd) with
  | some f => Except.ok f.resource
  | none => Except.error EBADF

/-- Modelled from the spec: `Context::canonicalize` (arch context module, not
under `src/`) joins `cwd` with `p` unless `p` already contains a scheme
separator `:`. -/
def canonicalize (cwd p : String) : String :=
  if p.contains ':' then p else cwd ++ p

/-- Split a character list at the first `:`, yielding the parts before and
after it when one occurs. -/
def splitScheme : List Char → Option (List Char × List Char)
  | [] => none
  | c :: rest =>
    if c = ':' then some ([], rest)
    else
      match splitScheme rest with
      | some p => some (c :: p.1, p.2)
      | none => none

/-- Modelled from the spec: `Url::from_str` (fs module, not under `src/`)
splits on the first `:`; when absent the scheme is empty and the whole input
is the reference. Its only failure mode is non-UTF-8 input, which a `String`
cannot represent, so parsing is total here. -/
def Url.from_str (s : String) : Url :=
  match splitScheme s.data with
  | some p => { scheme := String.mk p.1, reference := String.mk p.2 }
  | none => { scheme := "", reference := s }

/-- Rust `Result<()>.and(Ok(0))` as the path syscalls use it. -/
def and_ok0 : Except Errno Unit → Except Errno Nat
  | Except.ok _ => Except.ok 0
  | Except.error e => Except.error e

/-- A call into the `Environment` routing layer, recorded so that which
syscalls delegate, and with which URL, is part of the embedded behaviour. -/
inductive EnvCall where
  | openC (url : Url) (flags : Nat)
  | mkdirC (url : Url) (flags : Nat)
  | rmdirC (url : Url)
  | statC (url : Url)
  | unlinkC (url : Url)
deriving DecidableEq, Repr

/-- Embedding of `do_sys_chdir` (src/kernel/syscall/file.rs lines 52-59): canonicalize the
path against the current context's `cwd` and store the result as the new
`cwd`; return `Ok(0)`. The source makes no call into the Environment, hence
the empty call list. -/
def do_sys_chdir (ctx : Context) (path : String) :
    Except Errno Nat × Context × List EnvCall :=
  (Except.ok 0, { ctx with cwd := canonicalize ctx.cwd path }, [])

/-- Embedding of `do_sys_mkdir` (src/kernel/syscall/file.rs lines 325-330): canonicalize,
parse the URL, delegate to `Environment::mkdir`. -/
def do_sys_mkdir (schemes : List KScheme) (ctx : Context) (path : String)
    (flags : Nat) : Except Errno Nat × List EnvCall :=
  let url := Url.from_str (canonicalize ctx.cwd path)
  (and_ok0 (envMkdir schemes url flags), [EnvCall.mkdirC url flags])

/-- Embedding of `do_sys_rmdir` (src/kernel/syscall/file.rs lines 466-471): canonicalize,
parse the URL, delegate to `Environment::rmdir`. -/
def do_sys_rmdir (schemes : List KScheme) (ctx : Context) (path : String) :
    Except Errno Nat × List EnvCall :=
  let url := Url.from_str (canonicalize ctx.cwd path)
  (and_ok0 (envRmdir schemes url), [EnvCall.rmdirC url])

/-- Embedding of `do_sys_unlink` (src/kernel/syscall/file.rs lines 485-490): canonicalize,
parse the URL, delegate to `Environment::unlink`. -/
def do_sys_unlink (schemes : List KScheme) (ctx : Context) (path : String) :
    Except Errno Nat × List EnvCall :=
  let url := Url.from_str (canonicalize ctx.cwd path)
  (and_ok0 (envUnlink schemes url), [EnvCall.unlinkC url])

/-- Embedding of `do_sys_open` (src/kernel/syscall/file.rs lines 384-399): canonicalize,
parse the URL, delegate to `Environment::open`; on success push the resource
under a fresh `next_fd()` and return that fd. -/
def do_sys_open (schemes : List KScheme) (ctx : Context) (path : String)
    (flags : Nat) : Except Errno Nat × List KScheme × Context :=
  let url := Url.from_str (canonicalize ctx.cwd path)
  match envOpen schemes url flags with
  | (Except.ok resource, schemes2) =>
    let fd := next_fd ctx.files
    (Except.ok fd, schemes2,
      { ctx with files := ctx.files ++ [{ fd := fd, resource := resource }] })
  | (Except.error e, schemes2) => (Except.error e, schemes2, ctx)

/-- The net effect of the removal loop in `do_sys_close`
(src/kernel/syscall/file.rs lines 91-106): walk the table from index 0 and
remove the first entry whose `fd` matches; `none` when no entry matches. -/
def removeFd : List ContextFile → Nat → Option (List ContextFile)
  | [], _ => none
  | f :: rest, fd =>
    if f.fd = fd then some rest
    else
      match removeFd rest fd with
      | some rest2 => some (f :: rest2)
      | none => none

/-- Embedding of `do_sys_close` (src/kernel/syscall/file.rs lines 85-109): remove the
first entry whose `fd` matches (dropping its resource) and return `Ok(0)`;
when no entry matches, fail `EBADF` with the table unchanged. -/
def do_sys_close (ctx : Context) (fd : Nat) : Except Errno Nat × Context :=
  match removeFd ctx.files fd with
  | some files2 => (Except.ok 0, { ctx with files := files2 })
  | none => (Except.error EBADF, ctx)

/-- Modelled from the spec: `Resource::dup` returns an independently usable
handle sharing the underlying object's logical state where appropriate; the
duplicate is modelled as the same resource value, and the spec names no
failure code for `dup`, so duplication is total here. -/
def Resource.dup (r : Resource) : Except Errno Resource :=
  Except.ok r

/-- Embedding of `do_sys_dup` (src/kernel/syscall/file.rs lines 132-148): resolve the
descriptor, duplicate the resource, install the duplicate under a fresh
`next_fd()` and return the new fd. -/
def do_sys_dup (ctx : Context) (fd : Nat) : Except Errno Nat × Context :=
  match get_file ctx.files fd with
  | Except.error e => (Except.error e, ctx)
  | Except.ok resource =>
    match resource.dup with
    | Except.error e => (Except.error e, ctx)
    | Except.ok new_resource =>
      let new_fd := next_fd ctx.files
      (Except.ok new_fd,
        { ctx with
          files := ctx.files ++ [{ fd := new_fd, resource := new_resource }] })

/-- Modelled from the spec: `PipeRead::new` (schemes::pipe, not under `src/`)
builds the read endpoint of a fresh in-memory pipe. Its read/write behaviour
is the pipe scheme's and is not consulted by the embedded syscalls. -/
def PipeRead.new : Resource :=
  { rpath := "pipe:r" }

/-- Modelled from the spec: `PipeWrite::new(&read)` (schemes::pipe, not under
`src/`) builds the write endpoint sharing the read endpoint's buffer. -/
def PipeWrite.new : Resource :=
  { rpath := "pipe:w" }

/-- Embedding of `do_sys_pipe2` (src/kernel/syscall/file.rs lines 401-426): with a null
`fds` pointer fail `EFAULT`; otherwise create the two pipe endpoints, install
each under a fresh `next_fd()` (recomputed between the two pushes) and
report the two descriptor numbers through the `fds` array, returned here as
the final component. The `flags` argument is received but never read
(`_flags` in the source). -/
def do_sys_pipe2 (ctx : Context) (fdsPtr : Nat) (_flags : Nat) :
    Except Errno Nat × Context × Option (Nat × Nat) :=
  if fdsPtr > 0 then
    let read := PipeRead.new
    let write := PipeWrite.new
    let fd0 := next_fd ctx.files
    let files1 := ctx.files ++ [{ fd := fd0, resource := read }]
    let fd1 := next_fd files1
    let files2 := files1 ++ [{ fd := fd1, resource := write }]
    (Except.ok 0, { ctx with files := files2 }, some (fd0, fd1))
  else
    (Except.error EFAULT, ctx, none)

/-- Embedding of `do_sys_read` (src/kernel/syscall/file.rs lines 459-464): resolve the
descriptor, forward to the resource's `read` with a buffer of `count`
bytes. -/
def do_sys_read (ctx : Context) (fd : Nat) (count : Nat) : Except Errno Nat :=
  match get_file ctx.files fd with
  | Except.ok r => r.readFn count
  | Except.error e => Except.error e

/-- Embedding of `do_sys_write` (src/kernel/syscall/file.rs lines 529-534): resolve the
descriptor, forward to the resource's `write`. -/
def do_sys_write (ctx : Context) (fd : Nat) (count : Nat) : Except Errno Nat :=
  match get_file ctx.files fd with
  | Except.ok r => r.writeFn count
  | Except.error e => Except.error e

/-- The 32-bit `offset as usize` cast in the `SEEK_SET` arm. -/
def usizeOfInt (i : Int) : Nat :=
  (i % (2 ^ 32 : Int)).toNat

/-- Embedding of `do_sys_lseek` (src/kernel/syscall/file.rs lines 276-286): resolve the
descriptor first, then map `SEEK_SET`/`SEEK_CUR`/`SEEK_END` to the seek
modes and forward; any other `whence` fails `EINVAL`. -/
def do_sys_lseek (ctx : Context) (fd : Nat) (offset : Int) (whence : Nat) :
    Except Errno Nat :=
  match get_file ctx.files fd with
  | Except.error e => Except.error e
  | Except.ok r =>
    if whence = SEEK_SET then r.seekFn (ResourceSeek.Start (usizeOfInt offset))
    else if whence = SEEK_CUR then r.seekFn (ResourceSeek.Current offset)
    else if whence = SEEK_END then r.seekFn (ResourceSeek.SeekEnd offset)
    else Except.error EINVAL

/-- Embedding of `do_sys_fstat` (src/kernel/syscall/file.rs lines 157-166): resolve the
descriptor first; only then check the user pointer, failing `EFAULT` when it
is null, and otherwise forward to the resource's `stat`. -/
def do_sys_fstat (ctx : Context) (fd : Nat) (statPtr : Nat) :
    Except Errno Nat :=
  match get_file ctx.files fd with
  | Except.error e => Except.error e
  | Except.ok r => if statPtr > 0 then r.statFn else Except.error EFAULT

/-- Embedding of `do_sys_stat` (src/kernel/syscall/file.rs lines 473-483): canonicalize
and parse the URL first; then check the user pointer, failing `EFAULT` when
it is null, and otherwise delegate to `Environment::stat`. -/
def do_sys_stat (schemes : List KScheme) (ctx : Context) (path : String)
    (statPtr : Nat) : Except Errno Nat :=
  let url := Url.from_str (canonicalize ctx.cwd path)
  if statPtr > 0 then and_ok0 (envStat schemes url)
  else Except.error EFAULT

/-- Modelled from the spec: `common::time::Duration` (not under `src/`):
seconds (u64, modelled modulo `2 ^ 64`) and nanoseconds, with the invariant
that nanoseconds stay in `[0, 1e9)`. -/
structure Duration where
  secs : Nat
  nanos : Nat
deriving DecidableEq, Repr

/-- Modelled from the spec: `Duration` addition (not under `src/`) has
wrapping add semantics on `secs` and carry from `nanos`, keeping `nanos` in
`[0, 1e9)`. -/
def durAdd (a b : Duration) : Duration :=
  let n := a.nanos + b.nanos
  if 1000000000 ≤ n then
    { secs := (a.secs + b.secs + 1) % 2 ^ 64, nanos := n - 1000000000 }
  else
    { secs := (a.secs + b.secs) % 2 ^ 64, nanos := n }

/-- Embedding of `PIT_DURATION` (src/kernel/main.rs lines 212-215): 0 seconds,
4,500,572 nanoseconds, added to both clocks on each 0x20 interrupt. -/
def PIT_DURATION : Duration :=
  { secs := 0, nanos := 4500572 }

/-- Well-formed machine representation of a `Duration`: `secs` fits in a u64
and `nanos` is within its documented range. -/
def Duration.WF (d : Duration) : Prop :=
  d.secs < 2 ^ 64 ∧ d.nanos < 1000000000

/-- Total nanosecond reading of a `Duration`. -/
def Duration.toNanos (d : Duration) : Nat :=
  d.secs * 1000000000 + d.nanos

/-- The portion of the kernel state that the trap dispatcher `kernel` in
src/kernel/main.rs touches through the Environment singleton: the two
clocks, the current context (when one exists), the interrupt counters, and
whether `context_switch` was invoked while handling the trap. -/
structure KernelState where
  clock_monotonic : Duration
  clock_realtime : Duration
  current : Option Context
  interrupts : Nat → Nat
  switched : Bool

/-- The counting prologue of the dispatcher (src/kernel/main.rs lines
537-540): `if interrupt < 0xFF`, increment `interrupts[interrupt]` before
dispatching; the init interrupt is not caught. -/
def countInterrupt (interrupts : Nat → Nat) (vector : Nat) : Nat → Nat :=
  if vector < 0xFF then
    fun v => if v = vector then interrupts v + 1 else interrupts v
  else interrupts

/-- The vector 0x20 (timer tick) arm of the dispatcher (src/kernel/main.rs
lines 543-558): add `PIT_DURATION` to the monotonic and realtime clocks,
increment the current context's `time` when a current context exists, and
invoke `context_switch`. -/
def tick (st : KernelState) : KernelState :=
  { st with
    clock_monotonic := durAdd st.clock_monotonic PIT_DURATION
    clock_realtime := durAdd st.clock_realtime PIT_DURATION
    current := st.current.map (fun c => { c with time := c.time + 1 })
    switched := true }

/-- One invocation of the trap dispatcher `kernel(vector, regs)`
(src/kernel/main.rs lines 447-600) restricted to the state fields modelled
here: the counting prologue followed by the tick arm for vector 0x20. The
other arms (IRQ fan-out to providers, syscall dispatch, the exception exit
loops, one-time init) act on collaborator state outside this model and leave
the clocks and counters unchanged. -/
def kernelStep (vector : Nat) (st : KernelState) : KernelState :=
  let st1 := { st with interrupts := countInterrupt st.interrupts vector }
  if vector = 0x20 then tick st1 else st1

/-- Example provider named `debug`, for concrete instantiations. -/
def debugScheme : KScheme :=
  { name := "debug" }

/-- Example provider named `initfs`, for concrete instantiations. -/
def initfsScheme : KScheme :=
  { name := "initfs" }

/-- Example provider named `memory`, for concrete instantiations. -/
def memoryScheme : KScheme :=
  { name := "memory" }

/-- C1: For every URL with a non-empty scheme string, each of the five
routing operations `open`, `mkdir`, `rmdir`, `stat` and `unlink` scans the
registered schemes in registration order and forwards the call to the first
scheme whose name equals the URL's scheme (leaving the scheme list
unchanged); if no registered scheme's name matches, the operation returns
`ENOENT`. -/
theorem c1_route_first_match_or_enoent (schemes : List KScheme) (url : Url)
    (flags : Nat) (h : url.scheme ≠ "") :
    envOpen schemes url flags =
      ((match schemes.find? (fun s => s.name == url.scheme) with
        | some s => s.openFn url flags
        | none => Except.error ENOENT), schemes) ∧
    envMkdir schemes url flags =
      (match schemes.find? (fun s => s.name == url.scheme) with
       | some s => s.mkdirFn url flags
       | none => Except.error ENOENT) ∧
    envRmdir schemes url =
      (match schemes.find? (fun s => s.name == url.scheme) with
       | some s => s.rmdirFn url
       | none => Except.error ENOENT) ∧
    envStat schemes url =
      (match schemes.find? (fun s => s.name == url.scheme) with
       | some s => s.statFn url
       | none => Except.error ENOENT) ∧
    envUnlink schemes url =
      (match schemes.find? (fun s => s.name == url.scheme) with
       | some s => s.unlinkFn url
       | none => Except.error ENOENT) := by
  refine ⟨?_, ?_, ?_, ?_, ?_⟩ <;>
    simp [envOpen, envMkdir, envRmdir, envStat, envUnlink, h,
      schemeScan_eq_find]

/-- C1 at a concrete input: routing a `memory:` URL through the list
`[debug, initfs, memory]` forwards to the `memory` provider, and all five
operations agree with first-match routing there. -/
theorem c1_route_first_match_or_enoent_witness :
    envOpen [debugScheme, initfsScheme, memoryScheme]
        { scheme := "memory", reference := "/x" } 0 =
      ((match ([debugScheme, initfsScheme, memoryScheme]).find?
            (fun s => s.name == "memory") with
        | some s => s.openFn { scheme := "memory", reference := "/x" } 0
        | none => Except.error ENOENT),
       [debugScheme, initfsScheme, memoryScheme]) ∧
    envMkdir [debugScheme, initfsScheme, memoryScheme]
        { scheme := "memory", reference := "/x" } 0 =
      (match ([debugScheme, initfsScheme, memoryScheme]).find?
          (fun s => s.name == "memory") with
       | some s => s.mkdirFn { scheme := "memory", reference := "/x" } 0
       | none => Except.error ENOENT) ∧
    envRmdir [debugScheme, initfsScheme, memoryScheme]
        { scheme := "memory", reference := "/x" } =
      (match ([debugScheme, initfsScheme, memoryScheme]).find?
          (fun s => s.name == "memory") with
       | some s => s.rmdirFn { scheme := "memory", reference := "/x" }
       | none => Except.error ENOENT) ∧
    envStat [debugScheme, initfsScheme, memoryScheme]
        { scheme := "memory", reference := "/x" } =
      (match ([debugScheme, initfsScheme, memoryScheme]).find?
          (fun s => s.name == "memory") with
       | some s => s.statFn { scheme := "memory", reference := "/x" }
       | none => Except.error ENOENT) ∧
    envUnlink [debugScheme, initfsScheme, memoryScheme]
        { scheme := "memory", reference := "/x" } =
      (match ([debugScheme, initfsScheme, memoryScheme]).find?
          (fun s => s.name == "memory") with
       | some s => s.unlinkFn { scheme := "memory", reference := "/x" }
       | none => Except.error ENOENT) :=
  c1_route_first_match_or_enoent [debugScheme, initfsScheme, memoryScheme]
    { scheme := "memory", reference := "/x" } 0 (by decide)

/-- The non-empty names of the registered schemes, in registration order. -/
def filteredNames (schemes : List KScheme) : List String :=
  (schemes.map KScheme.name).filter (fun n => n ≠ "")

/-- The registration invariant of spec section 8: no two schemes bear the
same non-empty name. -/
def nonemptyNamesDistinct (schemes : List KScheme) : Prop :=
  (filteredNames schemes).Nodup

theorem trimSlashes_empty : trimSlashes "" = "" := rfl

/-- C2: On `Environment::open` with an empty URL scheme, a reference that is
non-empty after stripping slashes, and `O_CREAT` set: when a registered
scheme already bears the reference as its name the call fails `EEXIST` and
the list is unchanged; otherwise the anonymous pair from `Scheme::new` is
built, the scheme (named by the reference) is appended to the list, and the
server resource is returned — and the registered-name distinctness
invariant is preserved, so at most one scheme ever holds a given non-empty
name. -/
theorem c2_register_unique_name (schemes : List KScheme) (url : Url)
    (flags : Nat) (hs : url.scheme = "")
    (hr : trimSlashes url.reference ≠ "")
    (hc : flags &&& O_CREAT = O_CREAT) :
    ((∃ s ∈ schemes, s.name = url.reference) →
      envOpen schemes url flags = (Except.error EEXIST, schemes)) ∧
    ((∀ s ∈ schemes, s.name ≠ url.reference) →
      envOpen schemes url flags =
        (Except.ok (Scheme.new url.reference).2,
          schemes ++ [(Scheme.new url.reference).1]) ∧
      ((Scheme.new url.reference).1).name = url.reference) ∧
    (nonemptyNamesDistinct schemes →
      nonemptyNamesDistinct (envOpen schemes url flags).2) := by
  have href : url.reference ≠ "" := by
    intro h0
    apply hr
    rw [h0]
    rfl
  by_cases hA : schemes.any (fun s => s.name = url.reference) = true
  · have h2 : envOpen schemes url flags = (Except.error EEXIST, schemes) := by
      simp only [envOpen, hs, if_pos rfl, if_neg hr, if_pos hc, hA, if_true]
    refine ⟨fun _ => h2, ?_, ?_⟩
    · intro hall
      exfalso
      rcases List.any_eq_true.mp hA with ⟨s, hm, hp⟩
      exact hall s hm (of_decide_eq_true hp)
    · intro hd
      rw [h2]
      exact hd
  · have hA' : schemes.any (fun s => s.name = url.reference) = false :=
      Bool.eq_false_iff.mpr hA
    have h2 : envOpen schemes url flags =
        (Except.ok (Scheme.new url.reference).2,
          schemes ++ [(Scheme.new url.reference).1]) := by
      simp [envOpen, hs, hr, hc, hA']
    have hnotmem : url.reference ∉ schemes.map KScheme.name := by
      intro hmem
      rcases List.mem_map.mp hmem with ⟨s, hm, he⟩
      exact hA (List.any_eq_true.mpr ⟨s, hm, decide_eq_true he⟩)
    refine ⟨?_, fun _ => ⟨h2, rfl⟩, ?_⟩
    · intro hex
      exfalso
      rcases hex with ⟨s, hm, he⟩
      exact hA (List.any_eq_true.mpr ⟨s, hm, decide_eq_true he⟩)
    · intro hd
      rw [h2]
      show ((schemes ++ [(Scheme.new url.reference).1]).map KScheme.name
        |>.filter (fun n => n ≠ "")).Nodup
      rw [List.map_append, List.filter_append]
      have hone : ([(Scheme.new url.reference).1].map KScheme.name
          |>.filter (fun n => n ≠ "")) = [url.reference] := by
        simp [Scheme.new, href]
      rw [hone, List.nodup_append]
      refine ⟨hd, List.nodup_singleton _, ?_⟩
      rw [List.disjoint_singleton]
      intro hmem
      exact hnotmem (List.mem_filter.mp hmem).1

/-- C2 at concrete inputs, the spec's scheme-registration scenario: with only
`debug` registered, `open("custom:", O_CREAT)` (empty-scheme URL with
reference `custom`) registers a scheme named `custom` and returns the server
resource; registering `custom` a second time fails `EEXIST`; distinctness of
the non-empty names persists. -/
theorem c2_register_unique_name_witness :
    envOpen [debugScheme] { scheme := "", reference := "custom" } 0x200 =
      (Except.ok (Scheme.new "custom").2,
        [debugScheme] ++ [(Scheme.new "custom").1]) ∧
    nonemptyNamesDistinct
      (envOpen [debugScheme] { scheme := "", reference := "custom" } 0x200).2 ∧
    envOpen ([debugScheme] ++ [(Scheme.new "custom").1])
        { scheme := "", reference := "custom" } 0x200 =
      (Except.error EEXIST, [debugScheme] ++ [(Scheme.new "custom").1]) := by
  have h1 := c2_register_unique_name [debugScheme]
    { scheme := "", reference := "custom" } 0x200 rfl (by decide) (by decide)
  have h2 := c2_register_unique_name ([debugScheme] ++ [(Scheme.new "custom").1])
    { scheme := "", reference := "custom" } 0x200 rfl (by decide) (by decide)
  refine ⟨(h1.2.1 (by decide)).1,
    h1.2.2 (by unfold nonemptyNamesDistinct; decide), h2.1 ?_⟩
  exact ⟨(Scheme.new "custom").1, by simp [Scheme.new], rfl⟩

/-- The spec's description of the root listing content: the newline-joined
list of the given names. -/
def newlineJoined : List String → String
  | [] => ""
  | [n] => n
  | n :: rest => n ++ "\n" ++ newlineJoined rest

theorem newlineJoined_nil : newlineJoined [] = "" := rfl

theorem newlineJoined_single (n : String) : newlineJoined [n] = n := rfl

theorem newlineJoined_cons_cons (a b : String) (l : List String) :
    newlineJoined (a :: b :: l) = a ++ "\n" ++ newlineJoined (b :: l) := rfl

theorem append_ne_empty (a b : String) (h : a ≠ "") : a ++ b ≠ "" := by
  intro h2
  apply h
  have h3 := congrArg String.data h2
  rw [String.data_append] at h3
  exact String.ext (List.append_eq_nil.mp h3).1

theorem filteredNames_cons_of_empty (s : KScheme) (l : List KScheme)
    (h : s.name = "") : filteredNames (s :: l) = filteredNames l := by
  simp [filteredNames, h]

theorem filteredNames_cons_of_ne (s : KScheme) (l : List KScheme)
    (h : s.name ≠ "") : filteredNames (s :: l) = s.name :: filteredNames l := by
  simp [filteredNames, h]

theorem string_isEmpty_false (s : String) (h : s ≠ "") : s.isEmpty = false := by
  rw [← Bool.not_eq_true]
  intro h2
  exact h ((String.isEmpty_iff s).mp h2)

theorem schemeListString_go (l : List KScheme) :
    ∀ acc : String, acc ≠ "" →
      List.foldl
        (fun list s =>
          if s.name.isEmpty then list
          else if list.isEmpty then s.name
          else list ++ "\n" ++ s.name)
        acc l =
      (if filteredNames l = [] then acc
       else acc ++ "\n" ++ newlineJoined (filteredNames l)) := by
  induction l with
  | nil =>
    intro acc _
    simp [filteredNames]
  | cons s l ih =>
    intro acc hacc
    rw [List.foldl_cons]
    by_cases hn : s.name = ""
    · have he : s.name.isEmpty = true := by
        rw [hn]
        decide
      rw [he, if_pos rfl, filteredNames_cons_of_empty s l hn]
      exact ih acc hacc
    · have hne := string_isEmpty_false s.name hn
      have hae := string_isEmpty_false acc hacc
      rw [hne, if_neg Bool.false_ne_true, hae, if_neg Bool.false_ne_true,
        ih (acc ++ "\n" ++ s.name)
          (append_ne_empty _ _ (append_ne_empty _ _ hacc)),
        filteredNames_cons_of_ne s l hn,
        if_neg (List.cons_ne_nil _ _)]
      cases hfl : filteredNames l with
      | nil => rw [if_pos rfl, newlineJoined_single]
      | cons x xs =>
        rw [if_neg (List.cons_ne_nil _ _), newlineJoined_cons_cons]
        simp [String.append_assoc]

/-- The listing string built by the fold in `Environment::open` is exactly
the newline-joined list of the non-empty registered scheme names, in
registration order. -/
theorem schemeListString_eq_newlineJoined (l : List KScheme) :
    schemeListString l = newlineJoined (filteredNames l) := by
  cases l with
  | nil => rfl
  | cons s l =>
    unfold schemeListString
    rw [List.foldl_cons]
    by_cases hn : s.name = ""
    · have he : s.name.isEmpty = true := by
        rw [hn]
        decide
      rw [he, if_pos rfl, filteredNames_cons_of_empty s l hn]
      exact schemeListString_eq_newlineJoined l
    · have hne := string_isEmpty_false s.name hn
      have hee : ("" : String).isEmpty = true := by decide
      rw [hne, if_neg Bool.false_ne_true, hee, if_pos rfl,
        schemeListString_go l s.name hn, filteredNames_cons_of_ne s l hn]
      cases hfl : filteredNames l with
      | nil => rw [if_pos rfl, newlineJoined_single]
      | cons x xs =>
        rw [if_neg (List.cons_ne_nil _ _), newlineJoined_cons_cons]

/-- C3: `Environment::open` with an empty URL scheme and a reference that is
empty after stripping leading and trailing `/` returns, leaving the scheme
list unchanged, a synthetic read-only resource labeled `:` whose content —
what a full read of the `VecResource` yields — is the newline-joined list of
the non-empty registered scheme names in registration order. -/
theorem c3_root_listing (schemes : List KScheme) (url : Url) (flags : Nat)
    (hs : url.scheme = "") (hr : trimSlashes url.reference = "") :
    envOpen schemes url flags =
      (Except.ok (VecResource.new ":" (schemeListString schemes)), schemes) ∧
    (VecResource.new ":" (schemeListString schemes)).rpath = ":" ∧
    (VecResource.new ":" (schemeListString schemes)).rdata =
      newlineJoined (filteredNames schemes) := by
  refine ⟨?_, rfl, ?_⟩
  · simp [envOpen, hs, hr]
  · show schemeListString schemes = newlineJoined (filteredNames schemes)
    exact schemeListString_eq_newlineJoined schemes

/-- C3 at the spec's concrete example: with schemes registered in order
`[debug, initfs, memory]`, opening the empty-scheme URL with reference `/`
yields the `:`-labeled resource whose content reads
`debug`, `initfs`, `memory` joined by newlines. -/
theorem c3_root_listing_witness :
    envOpen [debugScheme, initfsScheme, memoryScheme]
        { scheme := "", reference := "/" } 0 =
      (Except.ok (VecResource.new ":"
        (schemeListString [debugScheme, initfsScheme, memoryScheme])),
       [debugScheme, initfsScheme, memoryScheme]) ∧
    schemeListString [debugScheme, initfsScheme, memoryScheme] =
      "debug\ninitfs\nmemory" :=
  ⟨(c3_root_listing [debugScheme, initfsScheme, memoryScheme]
      { scheme := "", reference := "/" } 0 rfl (by decide)).1,
   by decide⟩

/-- The per-context invariant of spec section 8: the descriptor numbers in a
file table are pairwise distinct. -/
def fdsDistinct (files : List ContextFile) : Prop :=
  (files.map ContextFile.fd).Nodup

theorem le_foldl_max (l : List Nat) : ∀ a : Nat, a ≤ l.foldl Nat.max a := by
  induction l with
  | nil => intro a; exact Nat.le_refl a
  | cons b l ih =>
    intro a
    exact Nat.le_trans (Nat.le_max_left a b) (ih (Nat.max a b))

theorem mem_le_foldl_max (l : List Nat) :
    ∀ a x : Nat, x ∈ l → x ≤ l.foldl Nat.max a := by
  induction l with
  | nil =>
    intro a x hx
    exact absurd hx (List.not_mem_nil x)
  | cons b l ih =>
    intro a x hx
    rw [List.foldl_cons]
    rcases List.mem_cons.mp hx with h | h
    · subst h
      exact Nat.le_trans (Nat.le_max_right a x) (le_foldl_max l (Nat.max a x))
    · exact ih (Nat.max a b) x h

/-- Every descriptor in the table is strictly below `next_fd`, the heart of
why installing under `next_fd()` keeps descriptors distinct. -/
theorem fd_lt_next_fd (files : List ContextFile) :
    ∀ f ∈ files, f.fd < next_fd files := by
  intro f hf
  cases files with
  | nil => exact absurd hf (List.not_mem_nil f)
  | cons g l =>
    show f.fd < ((g :: l).map ContextFile.fd).foldl Nat.max 0 + 1
    have hm : f.fd ∈ (g :: l).map ContextFile.fd :=
      List.mem_map.mpr ⟨f, hf, rfl⟩
    exact Nat.lt_succ_of_le (mem_le_foldl_max _ 0 f.fd hm)

/-- Appending an entry under a fresh `next_fd` preserves distinctness. -/
theorem fdsDistinct_push (files : List ContextFile) (r : Resource)
    (h : fdsDistinct files) :
    fdsDistinct (files ++ [{ fd := next_fd files, resource := r }]) := by
  show ((files ++ _).map ContextFile.fd).Nodup
  rw [List.map_append]
  rw [List.nodup_append]
  refine ⟨h, List.nodup_singleton _, ?_⟩
  simp only [List.map_cons, List.map_nil]
  rw [List.disjoint_singleton]
  intro hmem
  rcases List.mem_map.mp hmem with ⟨f, hf, he⟩
  exact absurd he (Nat.ne_of_lt (fd_lt_next_fd files f hf))

theorem removeFd_eq_none (files : List ContextFile) (fd : Nat) :
    removeFd files fd = none ↔ ∀ f ∈ files, f.fd ≠ fd := by
  induction files with
  | nil => simp [removeFd]
  | cons g l ih =>
    by_cases hg : g.fd = fd
    · simp only [removeFd, if_pos hg]
      constructor
      · intro h
        exact absurd h (by simp)
      · intro h
        exact absurd hg (h g (List.mem_cons_self g l))
    · simp only [removeFd, if_neg hg]
      cases hrec : removeFd l fd with
      | some l2 =>
        simp only []
        constructor
        · intro h
          exact absurd h (by simp)
        · intro h
          have : removeFd l fd = none := ih.mpr (fun f hf => h f (List.mem_cons_of_mem g hf))
          rw [this] at hrec
          exact absurd hrec (by simp)
      | none =>
        simp only []
        constructor
        · intro _ f hf
          rcases List.mem_cons.mp hf with h | h
          · subst h; exact hg
          · exact (ih.mp hrec) f h
        · intro _
          trivial
  
theorem removeFd_sublist (files : List ContextFile) (fd : Nat) :
    ∀ l, removeFd files fd = some l → l.Sublist files := by
  induction files with
  | nil =>
    intro l h
    exact absurd h (by simp [removeFd])
  | cons g rest ih =>
    intro l h
    by_cases hg : g.fd = fd
    · rw [removeFd, if_pos hg] at h
      cases h
      exact List.sublist_cons_self g rest
    · rw [removeFd, if_neg hg] at h
      cases hrec : removeFd rest fd with
      | some l2 =>
        rw [hrec] at h
        cases h
        exact List.Sublist.cons₂ g (ih l2 hrec)
      | none =>
        rw [hrec] at h
        exact absurd h (by simp)

/-- Close only removes entries, so it preserves distinctness. -/
theorem fdsDistinct_removeFd (files : List ContextFile) (fd : Nat)
    (l : List ContextFile) (h : removeFd files fd = some l)
    (hd : fdsDistinct files) : fdsDistinct l :=
  List.Nodup.sublist (List.Sublist.map ContextFile.fd (removeFd_sublist files fd l h)) hd

/-- A context fixture with descriptors 0 and 2, for concrete
instantiations. -/
def ctxW : Context :=
  { cwd := "file:/",
    files := [{ fd := 0, resource := {} }, { fd := 2, resource := {} }] }

/-- C4: the `fd` values in a context's file table stay pairwise distinct:
every existing descriptor is strictly below `next_fd()` (which is 0 on an
empty table), so the entries `open`, `dup` and `pipe2` install under
`next_fd()` are fresh, and `close` only removes entries — each of the four
table-modifying operations preserves distinctness. -/
theorem c4_fds_distinct_preserved (schemes : List KScheme) (ctx : Context)
    (path : String) (flags fd fdsPtr pflags : Nat)
    (hd : fdsDistinct ctx.files) :
    (∀ f ∈ ctx.files, f.fd < next_fd ctx.files) ∧
    next_fd [] = 0 ∧
    (∀ l, removeFd ctx.files fd = some l → l.Sublist ctx.files) ∧
    fdsDistinct (do_sys_open schemes ctx path flags).2.2.files ∧
    fdsDistinct (do_sys_dup ctx fd).2.files ∧
    fdsDistinct (do_sys_pipe2 ctx fdsPtr pflags).2.1.files ∧
    fdsDistinct (do_sys_close ctx fd).2.files := by
  refine ⟨fd_lt_next_fd ctx.files, rfl, removeFd_sublist ctx.files fd,
    ?_, ?_, ?_, ?_⟩
  · rcases henv : envOpen schemes (Url.from_str (canonicalize ctx.cwd path))
        flags with ⟨res, schemes2⟩
    cases res with
    | ok resource =>
      simp only [do_sys_open, henv]
      exact fdsDistinct_push ctx.files resource hd
    | error e =>
      simp only [do_sys_open, henv]
      exact hd
  · cases hg : get_file ctx.files fd with
    | ok resource =>
      simp only [do_sys_dup, hg, Resource.dup]
      exact fdsDistinct_push ctx.files resource hd
    | error e =>
      simp only [do_sys_dup, hg]
      exact hd
  · by_cases hp : fdsPtr > 0
    · simp only [do_sys_pipe2, if_pos hp]
      exact fdsDistinct_push _ _ (fdsDistinct_push _ _ hd)
    · simp only [do_sys_pipe2, if_neg hp]
      exact hd
  · cases hrem : removeFd ctx.files fd with
    | some l =>
      simp only [do_sys_close, hrem]
      exact fdsDistinct_removeFd ctx.files fd l hrem hd
    | none =>
      simp only [do_sys_close, hrem]
      exact hd

/-- C4 at concrete inputs: on a table holding descriptors 0 and 2, each of
`open`, `dup`, `pipe2` and `close` leaves the descriptors pairwise
distinct. -/
theorem c4_fds_distinct_preserved_witness :
    fdsDistinct (do_sys_open [debugScheme] ctxW "debug:" 0).2.2.files ∧
    fdsDistinct (do_sys_dup ctxW 0).2.files ∧
    fdsDistinct (do_sys_pipe2 ctxW 4 0).2.1.files ∧
    fdsDistinct (do_sys_close ctxW 0).2.files :=
  (c4_fds_distinct_preserved [debugScheme] ctxW "debug:" 0 0 4 0
    (by unfold fdsDistinct ctxW; decide)).2.2.2

theorem mul_add_mod_mul (S r N K : Nat) (hr : r < K) (hN : 0 < N) :
    (S * K + r) % (N * K) = S % N * K + r := by
  have h1 : S * K + r = N * K * (S / N) + (S % N * K + r) := by
    conv_lhs => rw [← Nat.div_add_mod S N]
    ring
  rw [h1, Nat.mul_add_mod]
  apply Nat.mod_eq_of_lt
  have hs : S % N < N := Nat.mod_lt S hN
  calc S % N * K + r < S % N * K + K := Nat.add_lt_add_left hr _
    _ = (S % N + 1) * K := by ring
    _ ≤ N * K := Nat.mul_le_mul_right K (Nat.succ_le_of_lt hs)

theorem durAdd_WF (a b : Duration) (ha : a.WF) (hb : b.WF) :
    (durAdd a b).WF := by
  obtain ⟨_, ha2⟩ := ha
  obtain ⟨_, hb2⟩ := hb
  unfold durAdd
  by_cases h : 1000000000 ≤ a.nanos + b.nanos
  · rw [if_pos h]
    refine ⟨?_, ?_⟩
    · show (a.secs + b.secs + 1) % 2 ^ 64 < 2 ^ 64
      exact Nat.mod_lt _ (by norm_num)
    · show a.nanos + b.nanos - 1000000000 < 1000000000
      omega
  · rw [if_neg h]
    refine ⟨?_, ?_⟩
    · show (a.secs + b.secs) % 2 ^ 64 < 2 ^ 64
      exact Nat.mod_lt _ (by norm_num)
    · show a.nanos + b.nanos < 1000000000
      omega

theorem toNanos_lt (d : Duration) (h : d.WF) :
    d.toNanos < 2 ^ 64 * 1000000000 := by
  obtain ⟨h1, h2⟩ := h
  unfold Duration.toNanos
  have := Nat.mul_le_mul_right 1000000000 (Nat.succ_le_of_lt h1)
  omega

theorem durAdd_toNanos (a b : Duration) (ha : a.WF) (hb : b.WF) :
    (durAdd a b).toNanos =
      (a.toNanos + b.toNanos) % (2 ^ 64 * 1000000000) := by
  obtain ⟨ha1, ha2⟩ := ha
  obtain ⟨hb1, hb2⟩ := hb
  unfold durAdd Duration.toNanos
  by_cases h : 1000000000 ≤ a.nanos + b.nanos
  · rw [if_pos h]
    have he : a.secs * 1000000000 + a.nanos + (b.secs * 1000000000 + b.nanos)
        = (a.secs + b.secs + 1) * 1000000000
          + (a.nanos + b.nanos - 1000000000) := by
      omega
    rw [he, mul_add_mod_mul _ _ _ _ (by omega) (by norm_num)]
  · rw [if_neg h]
    have he : a.secs * 1000000000 + a.nanos + (b.secs * 1000000000 + b.nanos)
        = (a.secs + b.secs) * 1000000000 + (a.nanos + b.nanos) := by
      omega
    rw [he, mul_add_mod_mul _ _ _ _ (by omega) (by norm_num)]

theorem PIT_DURATION_WF : PIT_DURATION.WF :=
  ⟨by decide, by decide⟩

theorem PIT_DURATION_toNanos : PIT_DURATION.toNanos = 4500572 := rfl

/-- Iterated trap dispatch: `n` consecutive invocations of the trap dispatcher. -/
def kernelSteps (vector : Nat) : Nat → KernelState → KernelState
  | 0, st => st
  | n + 1, st => kernelSteps vector n (kernelStep vector st)

theorem kernelStep_0x20_clock_monotonic (st : KernelState) :
    (kernelStep 0x20 st).clock_monotonic =
      durAdd st.clock_monotonic PIT_DURATION := by
  simp [kernelStep, tick]

theorem kernelSteps_zero (v : Nat) (st : KernelState) :
    kernelSteps v 0 st = st := by
  simp only [kernelSteps]

theorem kernelSteps_succ (v n : Nat) (st : KernelState) :
    kernelSteps v (n + 1) st = kernelSteps v n (kernelStep v st) := by
  simp only [kernelSteps]

theorem kernelSteps_0x20_clock (n : Nat) :
    ∀ st : KernelState, st.clock_monotonic.WF →
      (kernelSteps 0x20 n st).clock_monotonic.WF ∧
      (kernelSteps 0x20 n st).clock_monotonic.toNanos =
        (st.clock_monotonic.toNanos + n * 4500572)
          % (2 ^ 64 * 1000000000) := by
  induction n with
  | zero =>
    intro st h
    refine ⟨h, ?_⟩
    rw [kernelSteps_zero, Nat.zero_mul, Nat.add_zero,
      Nat.mod_eq_of_lt (toNanos_lt _ h)]
  | succ n ih =>
    intro st h
    have hstep : (kernelStep 0x20 st).clock_monotonic =
        durAdd st.clock_monotonic PIT_DURATION :=
      kernelStep_0x20_clock_monotonic st
    have hwf : (kernelStep 0x20 st).clock_monotonic.WF := by
      rw [hstep]
      exact durAdd_WF _ _ h PIT_DURATION_WF
    obtain ⟨hwf2, heq⟩ := ih (kernelStep 0x20 st) hwf
    have hsucc : kernelSteps 0x20 (n + 1) st
        = kernelSteps 0x20 n (kernelStep 0x20 st) :=
      kernelSteps_succ 0x20 n st
    refine ⟨by rw [hsucc]; exact hwf2, ?_⟩
    rw [hsucc, heq, hstep, durAdd_toNanos _ _ h PIT_DURATION_WF,
      PIT_DURATION_toNanos, Nat.mod_add_mod]
    have harg : st.clock_monotonic.toNanos + 4500572 + n * 4500572
        = st.clock_monotonic.toNanos + (n + 1) * 4500572 := by ring
    rw [harg]

/-- C5: On every trap with vector 0x20 both clocks advance by exactly
`PIT_DURATION` under the wrapping `Duration` addition (a strict increase of
the total-nanosecond reading whenever the u64 seconds field does not wrap),
the current context's `time` counter increases by 1 when a current context
exists, and `context_switch` is invoked; `n` consecutive ticks advance
`clock_monotonic` by exactly `n` times `PIT_DURATION`'s 4,500,572
nanoseconds (modulo the u64 wrap of the seconds field). -/
theorem c5_tick_advances_clocks (st : KernelState) (n : Nat)
    (hm : st.clock_monotonic.WF) (hr : st.clock_realtime.WF) :
    (kernelStep 0x20 st).clock_monotonic =
      durAdd st.clock_monotonic PIT_DURATION ∧
    (kernelStep 0x20 st).clock_realtime =
      durAdd st.clock_realtime PIT_DURATION ∧
    (st.clock_monotonic.toNanos + 4500572 < 2 ^ 64 * 1000000000 →
      (kernelStep 0x20 st).clock_monotonic.toNanos =
        st.clock_monotonic.toNanos + 4500572 ∧
      st.clock_monotonic.toNanos <
        (kernelStep 0x20 st).clock_monotonic.toNanos) ∧
    (st.clock_realtime.toNanos + 4500572 < 2 ^ 64 * 1000000000 →
      (kernelStep 0x20 st).clock_realtime.toNanos =
        st.clock_realtime.toNanos + 4500572 ∧
      st.clock_realtime.toNanos <
        (kernelStep 0x20 st).clock_realtime.toNanos) ∧
    (kernelStep 0x20 st).current =
      st.current.map (fun c => { c with time := c.time + 1 }) ∧
    (kernelStep 0x20 st).switched = true ∧
    (kernelSteps 0x20 n st).clock_monotonic.toNanos =
      (st.clock_monotonic.toNanos + n * 4500572)
        % (2 ^ 64 * 1000000000) := by
  have h1 : (kernelStep 0x20 st).clock_monotonic =
      durAdd st.clock_monotonic PIT_DURATION := kernelStep_0x20_clock_monotonic st
  have h2 : (kernelStep 0x20 st).clock_realtime =
      durAdd st.clock_realtime PIT_DURATION := by
    simp [kernelStep, tick]
  refine ⟨h1, h2, ?_, ?_, ?_, ?_, (kernelSteps_0x20_clock n st hm).2⟩
  · intro hlt
    rw [h1, durAdd_toNanos _ _ hm PIT_DURATION_WF, PIT_DURATION_toNanos,
      Nat.mod_eq_of_lt hlt]
    omega
  · intro hlt
    rw [h2, durAdd_toNanos _ _ hr PIT_DURATION_WF, PIT_DURATION_toNanos,
      Nat.mod_eq_of_lt hlt]
    omega
  · simp [kernelStep, tick]
  · simp [kernelStep, tick]

/-- A kernel-state fixture for concrete instantiations: zeroed monotonic
clock, a realtime clock already advanced, a current context, zeroed
interrupt counters. -/
def kstW : KernelState :=
  { clock_monotonic := { secs := 0, nanos := 0 },
    clock_realtime := { secs := 12, nanos := 999999999 },
    current := some ctxW,
    interrupts := fun _ => 0,
    switched := false }

/-- C5 at a concrete state, including the spec's 1000-tick scenario: from a
zeroed monotonic clock, 1000 ticks advance it by exactly 4,500,572,000
nanoseconds. -/
theorem c5_tick_advances_clocks_witness :
    (kernelStep 0x20 kstW).clock_monotonic =
      durAdd kstW.clock_monotonic PIT_DURATION ∧
    (kernelStep 0x20 kstW).clock_realtime =
      durAdd kstW.clock_realtime PIT_DURATION ∧
    (kernelStep 0x20 kstW).clock_monotonic.toNanos =
      kstW.clock_monotonic.toNanos + 4500572 ∧
    kstW.clock_monotonic.toNanos <
      (kernelStep 0x20 kstW).clock_monotonic.toNanos ∧
    (kernelStep 0x20 kstW).current =
      kstW.current.map (fun c => { c with time := c.time + 1 }) ∧
    (kernelStep 0x20 kstW).switched = true ∧
    (kernelSteps 0x20 1000 kstW).clock_monotonic.toNanos = 4500572000 := by
  have h := c5_tick_advances_clocks kstW 1000 ⟨by decide, by decide⟩
    ⟨by decide, by decide⟩
  refine ⟨h.1, h.2.1, (h.2.2.1 (by decide)).1, (h.2.2.1 (by decide)).2,
    h.2.2.2.2.1, h.2.2.2.2.2.1, ?_⟩
  rw [h.2.2.2.2.2.2]
  decide

theorem kernelStep_interrupts (v : Nat) (st : KernelState) :
    (kernelStep v st).interrupts = countInterrupt st.interrupts v := by
  unfold kernelStep
  split <;> rfl

/-- C6: For every trap with vector `v`, the dispatcher increments
`interrupts[v]` by exactly one before dispatching if and only if
`v < 0xFF` — in particular the syscall vector 0x80 is counted and the init
vector 0xFF is never counted (spec section 9 asserts the opposite for
0x80). -/
theorem c6_interrupt_counting (st : KernelState) (v w : Nat) :
    (kernelStep v st).interrupts w =
      st.interrupts w + (if w = v ∧ v < 0xFF then 1 else 0) ∧
    (kernelStep 0x80 st).interrupts 0x80 = st.interrupts 0x80 + 1 ∧
    (kernelStep 0xFF st).interrupts w = st.interrupts w := by
  refine ⟨?_, ?_, ?_⟩
  · rw [kernelStep_interrupts]
    unfold countInterrupt
    by_cases hv : v < 0xFF
    · rw [if_pos hv]
      by_cases hw : w = v
      · rw [if_pos hw, if_pos ⟨hw, hv⟩]
      · rw [if_neg hw, if_neg (fun hc => hw hc.1), Nat.add_zero]
    · rw [if_neg hv, if_neg (fun hc => hv hc.2), Nat.add_zero]
  · rw [kernelStep_interrupts]
    simp [countInterrupt]
  · rw [kernelStep_interrupts]
    simp [countInterrupt]

theorem removeFd_some_eq_eraseP (files : List ContextFile) (fd : Nat) :
    ∀ l, removeFd files fd = some l →
      l = files.eraseP (fun f => f.fd == fd) := by
  induction files with
  | nil =>
    intro l h
    exact absurd h (by simp [removeFd])
  | cons g rest ih =>
    intro l h
    by_cases hg : g.fd = fd
    · rw [removeFd, if_pos hg] at h
      cases h
      rw [List.eraseP_cons_of_pos (by simp [hg])]
    · rw [removeFd, if_neg hg] at h
      cases hrec : removeFd rest fd with
      | some l2 =>
        rw [hrec] at h
        cases h
        rw [List.eraseP_cons_of_neg (by simp [hg]), ih l2 hrec]
      | none =>
        rw [hrec] at h
        exact absurd h (by simp)

theorem removeFd_not_mem (files : List ContextFile) (fd : Nat) :
    ∀ l, removeFd files fd = some l → fdsDistinct files →
      fd ∉ l.map ContextFile.fd := by
  induction files with
  | nil =>
    intro l h
    exact absurd h (by simp [removeFd])
  | cons g rest ih =>
    intro l h hd
    have hd2 := List.nodup_cons.mp hd
    by_cases hg : g.fd = fd
    · rw [removeFd, if_pos hg] at h
      cases h
      rw [← hg]
      exact hd2.1
    · rw [removeFd, if_neg hg] at h
      cases hrec : removeFd rest fd with
      | some l2 =>
        rw [hrec] at h
        cases h
        rw [List.map_cons, List.mem_cons]
        rintro (he | hm)
        · exact hg he.symm
        · exact ih l2 hrec hd2.2 hm
      | none =>
        rw [hrec] at h
        exact absurd h (by simp)

theorem get_file_not_mem (files : List ContextFile) (fd : Nat)
    (h : fd ∉ files.map ContextFile.fd) :
    get_file files fd = Except.error EBADF := by
  unfold get_file
  have hnone : files.find? (fun f => f.fd == fd) = none := by
    rw [List.find?_eq_none]
    intro f hf hbeq
    exact h (List.mem_map.mpr ⟨f, hf, eq_of_beq hbeq⟩)
  rw [hnone]

/-- C7: `do_sys_close(fd)` removes exactly the file-table entry whose `fd`
field matches (the first match, the unique one on a distinct table) and
returns `Ok(0)`; with no matching entry it returns `EBADF` and leaves the
table unchanged. After a successful close, `read`, `write` and `lseek` on
that descriptor all return `EBADF`. -/
theorem c7_close_removes_then_ebadf (ctx : Context)
    (fd count count2 : Nat) (offset : Int) (whence : Nat)
    (hd : fdsDistinct ctx.files) :
    (fd ∉ ctx.files.map ContextFile.fd →
      do_sys_close ctx fd = (Except.error EBADF, ctx)) ∧
    (fd ∈ ctx.files.map ContextFile.fd →
      do_sys_close ctx fd =
        (Except.ok 0,
          { ctx with files := ctx.files.eraseP (fun f => f.fd == fd) }) ∧
      do_sys_read (do_sys_close ctx fd).2 fd count = Except.error EBADF ∧
      do_sys_write (do_sys_close ctx fd).2 fd count2 = Except.error EBADF ∧
      do_sys_lseek (do_sys_close ctx fd).2 fd offset whence =
        Except.error EBADF) := by
  constructor
  · intro hnm
    have hnone : removeFd ctx.files fd = none := by
      rw [removeFd_eq_none]
      intro f hf he
      exact hnm (List.mem_map.mpr ⟨f, hf, he⟩)
    simp only [do_sys_close, hnone]
  · intro hm
    cases hrem : removeFd ctx.files fd with
    | none =>
      exfalso
      rcases List.mem_map.mp hm with ⟨f, hf, he⟩
      exact (removeFd_eq_none ctx.files fd).mp hrem f hf he
    | some l =>
      have hclose : do_sys_close ctx fd = (Except.ok 0, { ctx with files := l }) := by
        simp only [do_sys_close, hrem]
      have hget : get_file l fd = Except.error EBADF :=
        get_file_not_mem l fd (removeFd_not_mem ctx.files fd l hrem hd)
      refine ⟨?_, ?_, ?_, ?_⟩
      · rw [hclose, removeFd_some_eq_eraseP ctx.files fd l hrem]
      · rw [hclose]
        simp only [do_sys_read, hget]
      · rw [hclose]
        simp only [do_sys_write, hget]
      · rw [hclose]
        simp only [do_sys_lseek, hget]

/-- C7 at concrete inputs: closing descriptor 0 on a table holding 0 and 2
removes that entry and returns 0; subsequent `read`, `write` and `lseek` on
descriptor 0 all fail `EBADF`. -/
theorem c7_close_removes_then_ebadf_witness :
    do_sys_close ctxW 0 =
      (Except.ok 0,
        { ctxW with files := ctxW.files.eraseP (fun f => f.fd == 0) }) ∧
    do_sys_read (do_sys_close ctxW 0).2 0 5 = Except.error EBADF ∧
    do_sys_write (do_sys_close ctxW 0).2 0 6 = Except.error EBADF ∧
    do_sys_lseek (do_sys_close ctxW 0).2 0 3 1 = Except.error EBADF :=
  (c7_close_removes_then_ebadf ctxW 0 5 6 3 1
      (by unfold fdsDistinct ctxW; decide)).2 (by decide)

/-- C8 counterexample: the claim says `sys_chdir` canonicalizes and then
delegates the canonicalized path just as `mkdir`, `rmdir` and `unlink` do;
but at the concrete input `"foo"` the source of `do_sys_chdir` makes no call
into the Environment at all (it only stores the canonicalized path into
`cwd` and returns 0), while `do_sys_rmdir` on the same input delegates
exactly once — so chdir does not follow the canonicalize-then-delegate
pattern. -/
theorem c8_chdir_no_delegation_counterexample :
    (do_sys_chdir ctxW "foo").2.2 = ([] : List EnvCall) ∧
    (do_sys_rmdir [debugScheme] ctxW "foo").2 =
      [EnvCall.rmdirC (Url.from_str (canonicalize ctxW.cwd "foo"))] ∧
    (do_sys_rmdir [debugScheme] ctxW "foo").2 ≠ ([] : List EnvCall) ∧
    (do_sys_chdir ctxW "foo").1 = Except.ok 0 :=
  ⟨rfl, rfl, by decide, rfl⟩

/-- C8 (amended): for every path `p`, `sys_chdir` canonicalizes `p` against
the current context's cwd and stores the canonicalized path as the new cwd,
returning 0 and making no Environment call; the canonicalize-then-delegate
pattern belongs to `mkdir`, `rmdir` and `unlink`, each of which delegates
exactly the canonicalized path, parsed as a URL, to its Environment
operation. -/
theorem c8_chdir_canonicalizes_and_stores (schemes : List KScheme)
    (ctx : Context) (path : String) (flags : Nat) :
    do_sys_chdir ctx path =
      (Except.ok 0, { ctx with cwd := canonicalize ctx.cwd path }, []) ∧
    (do_sys_mkdir schemes ctx path flags).2 =
      [EnvCall.mkdirC (Url.from_str (canonicalize ctx.cwd path)) flags] ∧
    (do_sys_mkdir schemes ctx path flags).1 =
      and_ok0 (envMkdir schemes (Url.from_str (canonicalize ctx.cwd path))
        flags) ∧
    (do_sys_rmdir schemes ctx path).2 =
      [EnvCall.rmdirC (Url.from_str (canonicalize ctx.cwd path))] ∧
    (do_sys_rmdir schemes ctx path).1 =
      and_ok0 (envRmdir schemes (Url.from_str (canonicalize ctx.cwd path))) ∧
    (do_sys_unlink schemes ctx path).2 =
      [EnvCall.unlinkC (Url.from_str (canonicalize ctx.cwd path))] ∧
    (do_sys_unlink schemes ctx path).1 =
      and_ok0 (envUnlink schemes (Url.from_str (canonicalize ctx.cwd path))) :=
  ⟨rfl, rfl, rfl, rfl, rfl, rfl, rfl⟩

/-- C9: `do_sys_pipe2` never reads its `flags` argument (`_flags` in the
source): for every context and non-null `fds` pointer, any two flags values
produce the same result, the same file table, and the same pair written
through `fds`. -/
theorem c9_pipe2_flags_ignored (ctx : Context) (fdsPtr f1 f2 : Nat)
    (h : 0 < fdsPtr) :
    do_sys_pipe2 ctx fdsPtr f1 = do_sys_pipe2 ctx fdsPtr f2 := rfl

/-- C9 at concrete inputs: `pipe2` with flags 1 and with flags `O_CREAT`
behave identically. -/
theorem c9_pipe2_flags_ignored_witness :
    do_sys_pipe2 ctxW 4 1 = do_sys_pipe2 ctxW 4 0x200 :=
  c9_pipe2_flags_ignored ctxW 4 1 0x200 (by decide)

/-- C10: in `do_sys_fstat` the descriptor resolution precedes the
null-pointer check: an unknown descriptor yields `EBADF` for every `stat`
pointer, null included; when the descriptor resolves, a null pointer yields
`EFAULT` and a non-null pointer forwards to the resource's `stat`.
Likewise `do_sys_stat` canonicalizes and parses its path first and fails
`EFAULT` on a null pointer without consulting the scheme list. -/
theorem c10_fstat_lookup_before_null_check (ctx : Context)
    (fd statPtr : Nat) (schemes : List KScheme) (path : String) :
    (fd ∉ ctx.files.map ContextFile.fd →
      do_sys_fstat ctx fd statPtr = Except.error EBADF) ∧
    (∀ r, get_file ctx.files fd = Except.ok r →
      do_sys_fstat ctx fd 0 = Except.error EFAULT ∧
      (0 < statPtr → do_sys_fstat ctx fd statPtr = r.statFn)) ∧
    do_sys_stat schemes ctx path 0 = Except.error EFAULT := by
  refine ⟨?_, ?_, ?_⟩
  · intro hnm
    simp only [do_sys_fstat, get_file_not_mem ctx.files fd hnm]
  · intro r hr
    constructor
    · simp only [do_sys_fstat, hr]
      rfl
    · intro hp
      simp only [do_sys_fstat, hr, if_pos hp]
  · simp only [do_sys_stat]
    rfl

/-- C10 at concrete inputs: descriptor 7 is not open in the fixture context,
so `fstat(7, null)` fails `EBADF`, not `EFAULT`; descriptor 0 is open, so
`fstat(0, null)` fails `EFAULT`; `stat` with a null pointer fails `EFAULT`. -/
theorem c10_fstat_lookup_before_null_check_witness :
    do_sys_fstat ctxW 7 0 = Except.error EBADF ∧
    do_sys_fstat ctxW 0 0 = Except.error EFAULT ∧
    do_sys_stat [debugScheme] ctxW "debug:x" 0 = Except.error EFAULT := by
  have h := c10_fstat_lookup_before_null_check ctxW 7 0 [debugScheme] "debug:x"
  have h2 := c10_fstat_lookup_before_null_check ctxW 0 0 [debugScheme] "debug:x"
  exact ⟨h.1 (by decide), (h2.2.1 ({} : Resource) rfl).1, h.2.2⟩
